import Mathlib

/-!
Shallow embedding of the medicine-ball throw-distance pipeline
(`src/AntarDrishti_Core/AntarDristhi_MedicineBall/medicineBall.py`,
class `ThrowDistanceMeasurer`, method `_process`, lines 341-513).

Modelling conventions:
* Python machine floats (`athlete_height_cm`, scales, distances) are modelled
  as exact rationals.  In particular the literals `0.2`, `1.5`, `0.4`, `0.5`
  become `1/5`, `3/2`, `2/5`, `1/2`; for the only float comparison whose
  outcome could in principle differ (`static_count > len(all_balls) * 0.4`,
  line 450) the integer gap between a count and `2n/5` is at least `1/5`,
  which dwarfs the `1e-16`-scale float error for any video-sized `n`, so the
  exact comparison `2 * n < 5 * static_count` agrees with the float one.
* Pixel coordinates are Python ints, modelled as `Int`; Python floor
  division `//` is `Int.fdiv`.
* The external vision calls (pose estimator, ball detector) and the preview
  key poll are inputs: each frame of the video contributes a `FrameInput`
  carrying what those calls would return on that frame.
* Rendering, logging and wall-clock timing have no effect on the returned
  `MeasurementResult` and are not modelled (`processing_time_ms` is set from
  the wall clock outside `_process`).
-/

namespace MedicineBall

/-- One collected ball observation: the tuples `(x, y, frame_count)` pushed
into `all_balls` (line 386). -/
structure Ball where
  x : Int
  y : Int
  frame : Nat
  deriving DecidableEq, Repr

/-- Per-frame external inputs to the loop body (lines 361-416):
`pose` is what `get_person_x` would return (person x and optional pixel
height), `ball` is what `BallDetector.detect` would return, and `cancel`
models the per-frame preview key poll `show_preview and waitKey(1) == q`
(lines 413-416). -/
structure FrameInput where
  pose : Option (Int × Option ℚ)
  ball : Option (Int × Int)
  cancel : Bool
  deriving DecidableEq, Repr

/-- The configuration fields consulted by `_process` (lines 69-70). -/
structure Config where
  manual_scale_cm_per_px : Option ℚ := none
  manual_origin_x : Option Int := none
  deriving DecidableEq, Repr

/-- The result record (lines 89-98); fields default exactly as the Python
dataclass defaults. -/
structure MeasurementResult where
  status : String
  distance_cm : Option ℚ := none
  distance_m : Option ℚ := none
  calibration_scale : Option ℚ := none
  trajectory_points : Nat := 0
  error_message : Option String := none
  deriving DecidableEq, Repr

/-- The loop-carried state of `_process` (lines 350-357): the calibration
scale, the person-position hint, the collected ball observations and the
frame counter. -/
structure PState where
  scale : Option ℚ
  hint : Option Int
  balls : List Ball
  frameCount : Nat
  deriving DecidableEq, Repr

/-- One iteration of the frame loop (lines 361-411).  The pose block runs
only when `scale is None or person_x_hint is None` (line 370); the hint is
set first-wins (lines 374-376); the scale is derived only while unset, from
a pixel height `> 30` whose ratio lies in `[0.2, 1.5]` (lines 377-381); the
ball observation is appended afterwards (lines 384-386). -/
def step (athleteHeightCm : ℚ) (s : PState) (inp : FrameInput) : PState :=
  let fc := s.frameCount + 1
  let hint1 :=
    if s.scale.isNone || s.hint.isNone then
      match inp.pose with
      | some (px, _) => if s.hint.isNone then some px else s.hint
      | none => s.hint
    else s.hint
  let scale1 :=
    if s.scale.isNone || s.hint.isNone then
      match inp.pose with
      | some (_, some phv) =>
          if s.scale.isNone then
            if 30 < phv then
              if 1/5 ≤ athleteHeightCm / phv ∧ athleteHeightCm / phv ≤ 3/2 then
                some (athleteHeightCm / phv)
              else s.scale
            else s.scale
          else s.scale
      | _ => s.scale
    else s.scale
  let balls1 :=
    match inp.ball with
    | some bp => s.balls ++ [⟨bp.1, bp.2, fc⟩]
    | none => s.balls
  { scale := scale1, hint := hint1, balls := balls1, frameCount := fc }

/-- The frame loop (lines 361-416).  `none` models the early
`return MeasurementResult(status="CANCELLED")` of line 416; the frame's
detections are folded in before the key is polled, matching statement
order. -/
def runFrames (athleteHeightCm : ℚ) : List FrameInput → PState → Option PState
  | [], s => some s
  | inp :: rest, s =>
      let s' := step athleteHeightCm s inp
      if inp.cancel then none else runFrames athleteHeightCm rest s'

/-- The scale-derivation guard of lines 377-380 viewed as a per-frame
candidate: `some` exactly when that frame's person signal would set an
unset scale, carrying the value it would set. -/
def qual (athleteHeightCm : ℚ) (inp : FrameInput) : Option ℚ :=
  match inp.pose with
  | some (_, some phv) =>
      if 30 < phv then
        if 1/5 ≤ athleteHeightCm / phv ∧ athleteHeightCm / phv ≤ 3/2 then
          some (athleteHeightCm / phv)
        else none
      else none
  | _ => none

/-- Number of object observations a frame sequence contributes. -/
def countObs (frames : List FrameInput) : Nat :=
  (frames.filterMap FrameInput.ball).length

/-- `(x // 50) * 50` with Python floor division (line 444). -/
def bucketOf (x : Int) : Int := (Int.fdiv x 50) * 50

/-- Keys of a Python dict in insertion order: first occurrences, in order. -/
def uniqueInOrder (l : List Int) : List Int :=
  l.foldl (fun acc b => if b ∈ acc then acc else acc ++ [b]) []

/-- Python `max(iterable, key=k)` over a list: scans left to right and
replaces the current best only on a strictly larger key, so the first
maximiser wins.  The `[]` arm models the `if position_counts else 0` default
of line 447 (unreachable once at least one ball was collected). -/
def pymaxKey (l : List Int) (k : Int → Nat) : Int :=
  match l with
  | [] => 0
  | a :: rest => rest.foldl (fun best x => if k best < k x then x else best) a

/-- `position_counts[b]` of the bucket histogram (lines 442-445). -/
def bucketCount (balls : List Ball) (b : Int) : Nat :=
  (balls.map (fun obs => bucketOf obs.x)).count b

/-- `max(position_counts, key=position_counts.get)` (line 447). -/
def staticBucketOf (balls : List Ball) : Int :=
  pymaxKey (uniqueInOrder (balls.map (fun obs => bucketOf obs.x)))
    (bucketCount balls)

/-- `for i in range(fuel)` starting at `i`, returning the first index whose
predicate holds (the shape of the break-on-first-hit loops). -/
def scanIdx (p : Nat → Bool) : Nat → Nat → Option Nat
  | 0, _ => none
  | fuel + 1, i => if p i then some i else scanIdx p fuel (i + 1)

/-- `all_balls[i]` with an (unreachable) default observation. -/
def ballAt (balls : List Ball) (i : Nat) : Ball := balls.getD i ⟨0, 0, 0⟩

/-- x-coordinate at an index. -/
def xAt (balls : List Ball) (i : Nat) : Int := (ballAt balls i).x

/-- y-coordinate at an index. -/
def yAt (balls : List Ball) (i : Nat) : Int := (ballAt balls i).y

/-- The movement-onset loop `for i in range(len(all_balls) - 3)` comparing
`all_balls[i][0]` with `all_balls[i + 2][0]` against the threshold 20
(lines 458-463). -/
def firstMove (balls : List Ball) : Option Nat :=
  scanIdx (fun i => decide (20 < |xAt balls (i + 2) - xAt balls i|))
    (balls.length - 3) 0

/-- `all_balls[0][0]`; the empty arm is unreachable under the length-3
guard of line 421. -/
def headX (balls : List Ball) : Int :=
  match balls with
  | [] => 0
  | b :: _ => b.x

/-- The static-cluster filter (lines 440-455): if the modal width-50 bucket
holds more than 40 percent of the points, drop every point within 75px of
the bucket center, but adopt the filtered list only when at least 3 points
remain. -/
def filteredTrajectory (balls : List Ball) : List Ball :=
  let staticBucket := staticBucketOf balls
  let staticCount := bucketCount balls staticBucket
  if 2 * balls.length < 5 * staticCount then
    let filtered := balls.filter (fun b => 75 < |b.x - staticBucket - 25|)
    if 3 ≤ filtered.length then filtered else balls
  else balls

/-- The no-balls-near-person branch (lines 439-465): static-cluster
filtering, then the movement-onset scan over the possibly filtered list.
Before the scan the origin is the first point of the adopted list (line 429
resp. line 455), and the scan overrides it with
`all_balls[max(0, i - 1)][0]` on its first hit (line 462); `Nat`
subtraction is exactly `max(0, i - 1)`. -/
def originNoNear (balls : List Ball) : Int × List Ball :=
  let balls1 := filteredTrajectory balls
  match firstMove balls1 with
  | some i => (xAt balls1 (i - 1), balls1)
  | none => (headX balls1, balls1)

/-- Origin resolution (lines 428-473): returns the resolved origin x and
the possibly filtered trajectory used by the rest of the analysis.
Strategy 1 (lines 432-438) looks for points with x strictly within 200px of
the person hint and takes the first; otherwise the static filter and
movement scan run.  The manual override (line 471) is a Python truthiness
test, so it fires only for a nonzero manual origin, and it runs after the
heuristics, whose trajectory filtering persists. -/
def resolveOrigin (balls : List Ball) (hint : Option Int)
    (manual : Option Int) : Int × List Ball :=
  let r :=
    match hint with
    | some h =>
        match balls.filter (fun b => |b.x - h| < 200) with
        | b0 :: _ => (b0.x, balls)
        | [] => originNoNear balls
    | none => (headX balls, balls)
  match manual with
  | some m => if m ≠ 0 then (m, r.2) else r
  | none => r

/-- Python `max(range(n), key=...)`: left-to-right scan of `(index, key)`
pairs keeping the pair with the strictly larger key, so the first maximiser
wins. -/
def goP : List Int → Nat → (Nat × Int) → (Nat × Int)
  | [], _, bst => bst
  | yv :: rest, i, bst => goP rest (i + 1) (if bst.2 < yv then (i, yv) else bst)

/-- `max(range(len(all_balls)), key=lambda i: all_balls[i][1])` (line 483). -/
def landingIdx (balls : List Ball) : Nat :=
  match balls.map Ball.y with
  | [] => 0
  | y0 :: rest => (goP rest 1 (0, y0)).1

/-- x-coordinate of the landing point (lines 483-484). -/
def landingXOf (balls : List Ball) : Int := xAt balls (landingIdx balls)

/-- Round half to even, the tie rule of Python `round`, on exact
rationals. -/
def rhe (q : ℚ) : ℤ :=
  if q - ⌊q⌋ < 1/2 then ⌊q⌋
  else if 1/2 < q - ⌊q⌋ then ⌊q⌋ + 1
  else if ⌊q⌋ % 2 = 0 then ⌊q⌋ else ⌊q⌋ + 1

/-- Python `round(q, n)` on exact rationals. -/
def roundTo (n : ℕ) (q : ℚ) : ℚ := (rhe (q * 10 ^ n) : ℚ) / 10 ^ n

/-- The insufficient-signal result of lines 421-426. -/
def invalidResult (count : Nat) : MeasurementResult :=
  { status := "INVALID", trajectory_points := count,
    error_message := some ("Not enough ball detections. Adjust ball color settings.") }

/-- The early-return result of line 416: all other fields keep their
dataclass defaults. -/
def cancelledResult : MeasurementResult := { status := "CANCELLED" }

/-- End-of-stream analysis (lines 419-513): the under-3 guard, origin
resolution, the `0.5` default scale (lines 476-480), landing arg-max, the
raw distance `dist_cm = abs(landing_x - origin_x) * scale` (lines 489-490),
and the result fields `round(dist_cm, 2)` and `round(dist_cm / 100, 3)` —
both rounded from the UNROUNDED `dist_cm` (lines 509-510). -/
def analyze (cfg : Config) (s : PState) : MeasurementResult :=
  if s.balls.length < 3 then invalidResult s.balls.length
  else
    let pr := resolveOrigin s.balls s.hint cfg.manual_origin_x
    let scale := s.scale.getD (1/2)
    let landingX := landingXOf pr.2
    let distCm : ℚ := |landingX - pr.1| * scale
    { status := "VALID",
      distance_cm := some (roundTo 2 distCm),
      distance_m := some (roundTo 3 (distCm / 100)),
      calibration_scale := some scale,
      trajectory_points := pr.2.length }

/-- The state entering the loop (lines 350-357): the scale starts from the
manual override, everything else empty. -/
def initState (cfg : Config) : PState :=
  ⟨cfg.manual_scale_cm_per_px, none, [], 0⟩

/-- The whole `_process` run over a frame-input sequence (the video is
already open; the `ERROR` arms of `process_video` happen before `_process`
and are outside this model). -/
def processFrames (cfg : Config) (athleteHeightCm : ℚ)
    (frames : List FrameInput) : MeasurementResult :=
  match runFrames athleteHeightCm frames (initState cfg) with
  | none => cancelledResult
  | some s => analyze cfg s

/-! ### Concrete inputs used by counterexamples and witnesses -/

/-- A 3-point trajectory whose first point has x = 5. -/
def c4balls : List Ball := [⟨5, 1, 1⟩, ⟨6, 2, 2⟩, ⟨7, 3, 3⟩]

/-- Three ball-only frames: the run collects (0,0), (10,5), (20,9). -/
def c2frames : List FrameInput :=
  [⟨none, some (0, 0), false⟩, ⟨none, some (10, 5), false⟩,
   ⟨none, some (20, 9), false⟩]

/-- Three ball-only frames giving pixel distance 1 between first ball and
landing; combined with the scale 1.146 = 573/500 (in the derivable range
[0.2, 1.5]) the raw distance is 1.146 cm. -/
def cm2frames : List FrameInput :=
  [⟨none, some (0, 0), false⟩, ⟨none, some (0, 1), false⟩,
   ⟨none, some (1, 5), false⟩]

/-- Three ball-only frames matching the spec's Scenario A trajectory. -/
def c2wframes : List FrameInput :=
  [⟨none, some (100, 50), false⟩, ⟨none, some (120, 55), false⟩,
   ⟨none, some (300, 400), false⟩]

/-- The state those three frames produce. -/
def c2wstate : PState :=
  ⟨none, none, [⟨100, 50, 1⟩, ⟨120, 55, 2⟩, ⟨300, 400, 3⟩], 3⟩

/-- The spec's Scenario B trajectory. -/
def c6balls : List Ball := [⟨100, 50, 1⟩, ⟨120, 55, 2⟩, ⟨300, 400, 3⟩]

/-- A 5-point trajectory whose only movement-onset trigger is the final
triple (2, 4), which the code's scan range excludes. -/
def c7balls : List Ball :=
  [⟨0, 0, 1⟩, ⟨10, 0, 2⟩, ⟨15, 0, 3⟩, ⟨20, 0, 4⟩, ⟨100, 0, 5⟩]

/-- A 3-point trajectory far from the hint with no adoptable filter. -/
def c8balls : List Ball := [⟨0, 0, 1⟩, ⟨1, 0, 2⟩, ⟨2, 0, 3⟩]

/-- An end-of-stream state with six observations, three of which sit in a
dominant static cluster at x near 0 while the hint is far away. -/
def c9state : PState :=
  ⟨none, some 10000,
   [⟨0, 0, 1⟩, ⟨0, 1, 2⟩, ⟨0, 2, 3⟩, ⟨200, 3, 4⟩, ⟨210, 4, 5⟩, ⟨220, 5, 6⟩], 6⟩

/-! ### Lemmas about the frame loop -/

/-- The scale component of one loop iteration: an already-set scale is never
touched, and an unset scale becomes exactly the frame's qualifying
candidate. -/
theorem step_scale (athleteHeightCm : ℚ) (s : PState) (inp : FrameInput) :
    (step athleteHeightCm s inp).scale =
      match s.scale with
      | some v => some v
      | none => qual athleteHeightCm inp := by
  cases hsc : s.scale with
  | some v =>
      unfold step
      rw [hsc]
      cases inp.pose with
      | none => simp
      | some pr =>
          obtain ⟨a, b⟩ := pr
          cases b with
          | none => simp
          | some phv => simp
  | none =>
      unfold step qual
      rw [hsc]
      cases inp.pose with
      | none => simp
      | some pr =>
          obtain ⟨a, b⟩ := pr
          cases b with
          | none => simp
          | some phv => simp

/-- The balls component of one loop iteration: the frame's observation (if
any) is appended with the incremented frame counter. -/
theorem step_balls (athleteHeightCm : ℚ) (s : PState) (inp : FrameInput) :
    (step athleteHeightCm s inp).balls =
      s.balls ++
        (match inp.ball with
         | some bp => [⟨bp.1, bp.2, s.frameCount + 1⟩]
         | none => []) := by
  cases hb : inp.ball with
  | none => simp [step, hb]
  | some bp => simp [step, hb]

/-- A run with no cancelled frame completes and is the plain fold of the
step function. -/
theorem runFrames_noCancel (athleteHeightCm : ℚ) :
    ∀ (frames : List FrameInput) (s : PState),
      (∀ f ∈ frames, f.cancel = false) →
      runFrames athleteHeightCm frames s =
        some (frames.foldl (step athleteHeightCm) s) := by
  intro frames
  induction frames with
  | nil => intro s _; rfl
  | cons inp rest ih =>
      intro s hnc
      have hc : inp.cancel = false := hnc inp (List.mem_cons_self _ _)
      simp only [runFrames, hc, if_false, List.foldl_cons, Bool.false_eq_true]
      exact ih _ (fun f hf => hnc f (List.mem_cons_of_mem _ hf))

/-- A completed run starting with an already-set scale keeps that scale. -/
theorem runFrames_scale_some (athleteHeightCm v : ℚ) :
    ∀ (frames : List FrameInput) (s : PState) (t : PState),
      runFrames athleteHeightCm frames s = some t →
      s.scale = some v → t.scale = some v := by
  intro frames
  induction frames with
  | nil =>
      intro s t hrun hs
      simp only [runFrames, Option.some.injEq] at hrun
      rw [← hrun]; exact hs
  | cons inp rest ih =>
      intro s t hrun hs
      simp only [runFrames] at hrun
      by_cases hc : inp.cancel = true
      · simp [hc] at hrun
      · simp only [hc, if_false] at hrun
        refine ih _ _ hrun ?_
        rw [step_scale, hs]

/-- A completed run starting with an unset scale ends with the first
qualifying candidate of the frame sequence (or stays unset if none
qualifies). -/
theorem runFrames_scale_none (athleteHeightCm : ℚ) :
    ∀ (frames : List FrameInput) (s : PState) (t : PState),
      runFrames athleteHeightCm frames s = some t →
      s.scale = none →
      t.scale = frames.findSome? (qual athleteHeightCm) := by
  intro frames
  induction frames with
  | nil =>
      intro s t hrun hs
      simp only [runFrames, Option.some.injEq] at hrun
      rw [← hrun, List.findSome?_nil]; exact hs
  | cons inp rest ih =>
      intro s t hrun hs
      simp only [runFrames] at hrun
      by_cases hc : inp.cancel = true
      · simp [hc] at hrun
      · simp only [hc, if_false] at hrun
        have hstep : (step athleteHeightCm s inp).scale = qual athleteHeightCm inp := by
          rw [step_scale, hs]
        rw [List.findSome?_cons]
        cases hq : qual athleteHeightCm inp with
        | none =>
            exact ih _ _ hrun (by rw [hstep, hq])
        | some c =>
            exact runFrames_scale_some athleteHeightCm c _ _ _ hrun (by rw [hstep, hq])

/-- A completed run collects exactly the frames' object observations on top
of the initial list. -/
theorem runFrames_balls_length (athleteHeightCm : ℚ) :
    ∀ (frames : List FrameInput) (s : PState) (t : PState),
      runFrames athleteHeightCm frames s = some t →
      t.balls.length = s.balls.length + countObs frames := by
  intro frames
  induction frames with
  | nil =>
      intro s t hrun
      simp only [runFrames, Option.some.injEq] at hrun
      rw [← hrun]; simp [countObs]
  | cons inp rest ih =>
      intro s t hrun
      simp only [runFrames] at hrun
      by_cases hc : inp.cancel = true
      · simp [hc] at hrun
      · simp only [hc, if_false] at hrun
        have := ih _ _ hrun
        rw [this, step_balls]
        cases hb : inp.ball with
        | none => simp [countObs, List.filterMap_cons, hb]
        | some bp => simp [countObs, List.filterMap_cons, hb, Nat.add_comm,
            Nat.add_assoc, Nat.add_left_comm]

/-- A run over a cancel-free prefix continues as the run over the rest from
the folded state. -/
theorem runFrames_append (athleteHeightCm : ℚ) :
    ∀ (pre rest : List FrameInput) (s : PState),
      (∀ f ∈ pre, f.cancel = false) →
      runFrames athleteHeightCm (pre ++ rest) s =
        runFrames athleteHeightCm rest (pre.foldl (step athleteHeightCm) s) := by
  intro pre
  induction pre with
  | nil => intro rest s _; rfl
  | cons inp pre' ih =>
      intro rest s hnc
      have hc : inp.cancel = false := hnc inp (List.mem_cons_self _ _)
      simp only [List.cons_append, runFrames, hc, if_false, List.foldl_cons,
        Bool.false_eq_true]
      exact ih _ _ (fun f hf => hnc f (List.mem_cons_of_mem _ hf))

/-! ### Lemmas about the landing arg-max -/

/-- Invariant proof for the Python first-maximiser scan: starting from a
best pair that is sound for the already-scanned prefix, the scan returns an
index carrying its own value, dominating every scanned position, and
strictly dominating every earlier position. -/
theorem goP_spec (ys : List Int) :
    ∀ (rest : List Int) (i : Nat) (bst : Nat × Int),
      ys.drop i = rest →
      bst.1 < i →
      bst.1 < ys.length →
      ys.getD bst.1 0 = bst.2 →
      (∀ j, j < i → ys.getD j 0 ≤ bst.2) →
      (∀ j, j < bst.1 → ys.getD j 0 < bst.2) →
      (goP rest i bst).1 < ys.length ∧
      ys.getD (goP rest i bst).1 0 = (goP rest i bst).2 ∧
      (∀ j, j < i + rest.length → ys.getD j 0 ≤ (goP rest i bst).2) ∧
      (∀ j, j < (goP rest i bst).1 → ys.getD j 0 < (goP rest i bst).2) := by
  intro rest
  induction rest with
  | nil =>
      intro i bst _ _ hbl hbv hle hlt
      simp only [goP, List.length_nil, Nat.add_zero]
      exact ⟨hbl, hbv, hle, hlt⟩
  | cons yv rest' ih =>
      intro i bst hdrop hbi hbl hbv hle hlt
      have hil : i < ys.length := by
        by_contra hge
        push_neg at hge
        have hnil : ys.drop i = [] := List.drop_eq_nil_iff.mpr hge
        rw [hdrop] at hnil
        exact List.cons_ne_nil _ _ hnil
      have hcons := List.drop_eq_getElem_cons hil
      rw [hdrop] at hcons
      have hyv : yv = ys[i] := by injection hcons
      have hdrop' : ys.drop (i + 1) = rest' := by
        injection hcons with h1 h2
        exact h2.symm
      have hyi : ys.getD i 0 = yv := by
        rw [List.getD_eq_getElem _ _ hil, hyv]
      simp only [goP]
      by_cases hcmp : bst.2 < yv
      · rw [if_pos hcmp]
        have hres := ih (i + 1) (i, yv) hdrop' (Nat.lt_succ_self i) hil hyi
          (by
            intro j hj
            rcases Nat.lt_succ_iff_lt_or_eq.mp hj with h | h
            · exact le_trans (hle j h) (le_of_lt hcmp)
            · rw [h, hyi])
          (by
            intro j hj
            exact lt_of_le_of_lt (hle j hj) hcmp)
        refine ⟨hres.1, hres.2.1, ?_, hres.2.2.2⟩
        intro j hj
        exact hres.2.2.1 j (by simpa [Nat.add_comm, Nat.add_assoc,
          Nat.add_left_comm] using hj)
      · rw [if_neg hcmp]
        have hres := ih (i + 1) bst hdrop' (Nat.lt_succ_of_lt hbi) hbl hbv
          (by
            intro j hj
            rcases Nat.lt_succ_iff_lt_or_eq.mp hj with h | h
            · exact hle j h
            · rw [h, hyi]; exact le_of_not_lt hcmp)
          hlt
        refine ⟨hres.1, hres.2.1, ?_, hres.2.2.2⟩
        intro j hj
        exact hres.2.2.1 j (by simpa [Nat.add_comm, Nat.add_assoc,
          Nat.add_left_comm] using hj)

/-- Reading the y-map of a trajectory at a valid index is `yAt`. -/
theorem getD_map_y (balls : List Ball) (j : Nat) (hj : j < balls.length) :
    (balls.map Ball.y).getD j 0 = yAt balls j := by
  have hj' : j < (balls.map Ball.y).length := by simpa using hj
  rw [List.getD_eq_getElem _ _ hj', List.getElem_map]
  unfold yAt ballAt
  rw [List.getD_eq_getElem _ _ hj]

/-- Claim C5: for every non-empty trajectory the landing resolver picks the
observation with the maximum y-coordinate over the whole trajectory, ties
broken by first occurrence in iteration order; it is a pure function of the
trajectory, hence deterministic. -/
theorem spec_C5_landing_argmax (balls : List Ball) (hne : balls ≠ []) :
    landingIdx balls < balls.length ∧
    (∀ j, j < balls.length → yAt balls j ≤ yAt balls (landingIdx balls)) ∧
    (∀ j, j < landingIdx balls → yAt balls j < yAt balls (landingIdx balls)) := by
  cases hys : balls.map Ball.y with
  | nil => exact absurd (by simpa using hys) hne
  | cons y0 restL =>
      have hlen : restL.length + 1 = balls.length := by
        have h1 := congrArg List.length hys
        simpa [Nat.add_comm] using h1.symm
      have hspec := goP_spec (y0 :: restL) restL 1 (0, y0) rfl Nat.zero_lt_one
        (Nat.succ_pos _) rfl
        (by
          intro j hj
          have hj0 : j = 0 := Nat.lt_one_iff.mp hj
          subst hj0
          exact le_rfl)
        (by
          intro j hj
          exact absurd hj (Nat.not_lt_zero j))
      have hli : landingIdx balls = (goP restL 1 (0, y0)).1 := by
        simp [landingIdx, hys]
      have hconv : ∀ j, j < balls.length → (y0 :: restL).getD j 0 = yAt balls j := by
        intro j hj
        rw [← hys]
        exact getD_map_y balls j hj
      have hg1 : (goP restL 1 (0, y0)).1 < balls.length := by
        have h2 := hspec.1
        simp only [List.length_cons] at h2
        omega
      have hgv : yAt balls (landingIdx balls) = (goP restL 1 (0, y0)).2 := by
        rw [hli, ← hconv _ hg1]
        exact hspec.2.1
      refine ⟨by rw [hli]; exact hg1, ?_, ?_⟩
      · intro j hj
        have h3 := hspec.2.2.1 j (by omega)
        rw [hconv j hj] at h3
        rw [hgv]
        exact h3
      · intro j hj
        rw [hli] at hj
        have hjl : j < balls.length := lt_trans hj hg1
        have h4 := hspec.2.2.2 j hj
        rw [hconv j hjl] at h4
        rw [hgv]
        exact h4

/-- Witness for C5 at a concrete two-point trajectory with a y-tie. -/
theorem spec_C5_landing_argmax_witness :
    ([⟨4, 9, 1⟩, ⟨7, 9, 2⟩] : List Ball) ≠ [] ∧
    (landingIdx [⟨4, 9, 1⟩, ⟨7, 9, 2⟩] < ([⟨4, 9, 1⟩, ⟨7, 9, 2⟩] : List Ball).length ∧
     (∀ j, j < ([⟨4, 9, 1⟩, ⟨7, 9, 2⟩] : List Ball).length →
        yAt [⟨4, 9, 1⟩, ⟨7, 9, 2⟩] j ≤
          yAt [⟨4, 9, 1⟩, ⟨7, 9, 2⟩] (landingIdx [⟨4, 9, 1⟩, ⟨7, 9, 2⟩])) ∧
     (∀ j, j < landingIdx [⟨4, 9, 1⟩, ⟨7, 9, 2⟩] →
        yAt [⟨4, 9, 1⟩, ⟨7, 9, 2⟩] j <
          yAt [⟨4, 9, 1⟩, ⟨7, 9, 2⟩] (landingIdx [⟨4, 9, 1⟩, ⟨7, 9, 2⟩]))) :=
  ⟨by decide, spec_C5_landing_argmax _ (by decide)⟩

/-! ### Lemmas about the break-on-first-hit scan -/

/-- A successful scan returns an in-range index satisfying the predicate,
with every earlier scanned index failing it. -/
theorem scanIdx_some (p : Nat → Bool) :
    ∀ (fuel i j : Nat), scanIdx p fuel i = some j →
      i ≤ j ∧ j < i + fuel ∧ p j = true ∧
        ∀ k, i ≤ k → k < j → p k = false := by
  intro fuel
  induction fuel with
  | zero => intro i j h; simp [scanIdx] at h
  | succ n ih =>
      intro i j h
      simp only [scanIdx] at h
      by_cases hp : p i = true
      · rw [if_pos hp] at h
        have hij : i = j := by injection h
        subst hij
        exact ⟨le_refl _, by omega, hp, fun k hk1 hk2 => absurd hk2 (by omega)⟩
      · rw [if_neg hp] at h
        have hres := ih (i + 1) j h
        refine ⟨by omega, by omega, hres.2.2.1, ?_⟩
        intro k hk1 hk2
        rcases eq_or_lt_of_le hk1 with heq | hlt
        · rw [← heq]
          revert hp
          cases p i <;> simp
        · exact hres.2.2.2 k (by omega) hk2

/-- A failed scan means no scanned index satisfies the predicate. -/
theorem scanIdx_none (p : Nat → Bool) :
    ∀ (fuel i : Nat), scanIdx p fuel i = none →
      ∀ k, i ≤ k → k < i + fuel → p k = false := by
  intro fuel
  induction fuel with
  | zero => intro i _ k hk1 hk2; omega
  | succ n ih =>
      intro i h k hk1 hk2
      simp only [scanIdx] at h
      by_cases hp : p i = true
      · rw [if_pos hp] at h; exact absurd h (by simp)
      · rw [if_neg hp] at h
        rcases eq_or_lt_of_le hk1 with heq | hlt
        · rw [← heq]
          revert hp
          cases p i <;> simp
        · exact ih (i + 1) h k (by omega) (by omega)

/-! ### Lemmas about filtering -/

/-- Indexing the head of a cons. -/
theorem ballAt_cons_zero (a : Ball) (l : List Ball) : ballAt (a :: l) 0 = a := rfl

/-- Indexing the tail of a cons. -/
theorem ballAt_cons_succ (a : Ball) (l : List Ball) (j : Nat) :
    ballAt (a :: l) (j + 1) = ballAt l j := rfl

/-- The head of a filtered list is the element at the first index
satisfying the predicate. -/
theorem filter_head_first (p : Ball → Bool) :
    ∀ (l : List Ball) (b : Ball) (t : List Ball), l.filter p = b :: t →
      ∃ i, i < l.length ∧ p (ballAt l i) = true ∧
        (∀ j, j < i → p (ballAt l j) = false) ∧ ballAt l i = b := by
  intro l
  induction l with
  | nil => intro b t h; simp at h
  | cons a l' ih =>
      intro b t h
      rw [List.filter_cons] at h
      by_cases hp : p a = true
      · rw [if_pos hp] at h
        have hab : a = b := by injection h
        exact ⟨0, Nat.succ_pos _, by rw [ballAt_cons_zero]; exact hp,
          fun j hj => absurd hj (Nat.not_lt_zero j),
          by rw [ballAt_cons_zero]; exact hab⟩
      · rw [if_neg hp] at h
        obtain ⟨i, hi, hpi, hbefore, heq⟩ := ih b t h
        refine ⟨i + 1, by simpa using Nat.succ_lt_succ hi, ?_, ?_, ?_⟩
        · rwa [ballAt_cons_succ]
        · intro j hj
          cases j with
          | zero =>
              rw [ballAt_cons_zero]
              revert hp
              cases p a <;> simp
          | succ j' =>
              rw [ballAt_cons_succ]
              exact hbefore j' (by omega)
        · rwa [ballAt_cons_succ]

/-! ### Lemmas about the modal bucket -/

/-- The Python-max fold dominates its seed and every scanned element. -/
theorem pymax_foldl_le (k : Int → Nat) :
    ∀ (l : List Int) (b : Int),
      k b ≤ k (l.foldl (fun best x => if k best < k x then x else best) b) ∧
      ∀ x ∈ l, k x ≤ k (l.foldl (fun best x => if k best < k x then x else best) b) := by
  intro l
  induction l with
  | nil => intro b; exact ⟨le_refl _, by simp⟩
  | cons a l' ih =>
      intro b
      simp only [List.foldl_cons]
      have hkb : k b ≤ k (if k b < k a then a else b) := by
        by_cases h : k b < k a
        · rw [if_pos h]; exact le_of_lt h
        · rw [if_neg h]
      have hka : k a ≤ k (if k b < k a then a else b) := by
        by_cases h : k b < k a
        · rw [if_pos h]
        · rw [if_neg h]; omega
      have hres := ih (if k b < k a then a else b)
      refine ⟨le_trans hkb hres.1, ?_⟩
      intro x hx
      rcases List.mem_cons.mp hx with hxa | hxl
      · rw [hxa]; exact le_trans hka hres.1
      · exact hres.2 x hxl

/-- Folding insert-if-absent preserves and collects membership. -/
theorem mem_uniqueInOrder_aux :
    ∀ (l acc : List Int) (x : Int), x ∈ acc ∨ x ∈ l →
      x ∈ l.foldl (fun acc b => if b ∈ acc then acc else acc ++ [b]) acc := by
  intro l
  induction l with
  | nil =>
      intro acc x h
      rcases h with h | h
      · simpa using h
      · simp at h
  | cons a l' ih =>
      intro acc x h
      simp only [List.foldl_cons]
      apply ih
      by_cases ha : a ∈ acc
      · rw [if_pos ha]
        rcases h with h | h
        · exact Or.inl h
        · rcases List.mem_cons.mp h with hxa | hxl
          · exact Or.inl (hxa ▸ ha)
          · exact Or.inr hxl
      · rw [if_neg ha]
        rcases h with h | h
        · exact Or.inl (List.mem_append.mpr (Or.inl h))
        · rcases List.mem_cons.mp h with hxa | hxl
          · exact Or.inl (List.mem_append.mpr (Or.inr (by simp [hxa])))
          · exact Or.inr hxl

/-- Every element of a list occurs among its first occurrences. -/
theorem mem_uniqueInOrder (l : List Int) (x : Int) (h : x ∈ l) :
    x ∈ uniqueInOrder l :=
  mem_uniqueInOrder_aux l [] x (Or.inr h)

/-- The chosen static bucket is modal: no observation's bucket has a
strictly larger count. -/
theorem staticBucketOf_maximal (balls : List Ball) (b : Ball) (hb : b ∈ balls) :
    bucketCount balls (bucketOf b.x) ≤ bucketCount balls (staticBucketOf balls) := by
  unfold staticBucketOf
  have hmem : bucketOf b.x ∈ uniqueInOrder (balls.map fun obs => bucketOf obs.x) :=
    mem_uniqueInOrder _ _ (List.mem_map_of_mem _ hb)
  cases hu : uniqueInOrder (balls.map fun obs => bucketOf obs.x) with
  | nil => rw [hu] at hmem; simp at hmem
  | cons a rest =>
      rw [hu] at hmem
      simp only [pymaxKey]
      rcases List.mem_cons.mp hmem with h | h
      · rw [h]
        exact (pymax_foldl_le (bucketCount balls) rest a).1
      · exact (pymax_foldl_le (bucketCount balls) rest a).2 _ h

/-! ### Lemmas about origin resolution -/

/-- The trajectory handed on by the no-near-ball branch is exactly the
static-filter output. -/
theorem originNoNear_snd (balls : List Ball) :
    (originNoNear balls).2 = filteredTrajectory balls := by
  unfold originNoNear
  cases h : firstMove (filteredTrajectory balls) <;> simp [h]

/-- The manual-origin override never changes the trajectory component. -/
theorem resolveOrigin_snd (balls : List Ball) (hint manual : Option Int) :
    (resolveOrigin balls hint manual).2 = (resolveOrigin balls hint none).2 := by
  unfold resolveOrigin
  cases manual with
  | none => rfl
  | some m => by_cases hm : m ≠ 0 <;> simp [hm]

/-- When every observation is at least 200px from the person hint, the
strategy-1 filter is empty. -/
theorem near_filter_nil (balls : List Ball) (h : Int)
    (hfar : ∀ b ∈ balls, 200 ≤ |b.x - h|) :
    balls.filter (fun b => |b.x - h| < 200) = [] := by
  rw [List.filter_eq_nil_iff]
  intro b hb
  simpa using not_lt.mpr (hfar b hb)

/-- Far-hint case of origin resolution without a manual override. -/
theorem resolveOrigin_none_far (balls : List Ball) (h : Int)
    (hfar : ∀ b ∈ balls, 200 ≤ |b.x - h|) :
    resolveOrigin balls (some h) none = originNoNear balls := by
  simp only [resolveOrigin]
  rw [near_filter_nil balls h hfar]

/-- The static filter written as one conditional. -/
theorem filteredTrajectory_eq (balls : List Ball) :
    filteredTrajectory balls =
      if 2 * balls.length < 5 * bucketCount balls (staticBucketOf balls) ∧
         3 ≤ (balls.filter (fun b => 75 < |b.x - staticBucketOf balls - 25|)).length
      then balls.filter (fun b => 75 < |b.x - staticBucketOf balls - 25|)
      else balls := by
  unfold filteredTrajectory
  by_cases h1 : 2 * balls.length < 5 * bucketCount balls (staticBucketOf balls)
  · rw [if_pos h1]
    by_cases h2 : 3 ≤ (balls.filter (fun b => 75 < |b.x - staticBucketOf balls - 25|)).length
    · rw [if_pos h2, if_pos ⟨h1, h2⟩]
    · rw [if_neg h2, if_neg (fun hc => h2 hc.2)]
  · rw [if_neg h1, if_neg (fun hc => h1 hc.1)]

/-! ### Lemmas about rounding -/

/-- Round-half-even of a nonnegative rational is nonnegative. -/
theorem rhe_nonneg (q : ℚ) (hq : 0 ≤ q) : 0 ≤ rhe q := by
  unfold rhe
  have hf : (0 : ℤ) ≤ ⌊q⌋ := Int.floor_nonneg.mpr hq
  split_ifs <;> omega

/-- Rounding a nonnegative rational to decimals stays nonnegative. -/
theorem roundTo_nonneg (n : ℕ) (q : ℚ) (hq : 0 ≤ q) : 0 ≤ roundTo n q := by
  unfold roundTo
  apply div_nonneg
  · exact_mod_cast rhe_nonneg _ (mul_nonneg hq (by positivity))
  · positivity

/-- Round-half-even fixes integers. -/
theorem rhe_intCast (z : ℤ) : rhe (z : ℚ) = z := by
  unfold rhe
  rw [Int.floor_intCast]
  norm_num

/-- Python rounding of a value whose scaled form is an integer. -/
theorem roundTo_of_intCast (n : ℕ) (z : ℤ) (q : ℚ) (hq : q * 10 ^ n = (z : ℚ)) :
    roundTo n q = (z : ℚ) / 10 ^ n := by
  unfold roundTo
  rw [hq, rhe_intCast]

/-- Round-half-even, fractional part below one half: round down. -/
theorem rhe_eq_floor (q : ℚ) (z : ℤ) (hz : ⌊q⌋ = z) (hlt : q - z < 1/2) :
    rhe q = z := by
  unfold rhe
  rw [hz, if_pos hlt]

/-- Round-half-even, fractional part above one half: round up. -/
theorem rhe_eq_ceil (q : ℚ) (z : ℤ) (hz : ⌊q⌋ = z) (hgt : 1/2 < q - z) :
    rhe q = z + 1 := by
  unfold rhe
  rw [hz, if_neg (not_lt.mpr (le_of_lt hgt)), if_pos hgt]

/-- Round-half-even, exact tie at an odd floor: round up to the even
neighbour. -/
theorem rhe_tie_odd (q : ℚ) (z : ℤ) (hz : ⌊q⌋ = z) (heq : q - z = 1/2)
    (hodd : ¬ z % 2 = 0) : rhe q = z + 1 := by
  unfold rhe
  rw [hz, if_neg (by rw [heq]; exact lt_irrefl _),
    if_neg (by rw [heq]; exact lt_irrefl _), if_neg hodd]

/-- The VALID branch of the end-of-stream analysis, written as one record
equality. -/
theorem analyze_valid (cfg : Config) (s : PState) (hlen : 3 ≤ s.balls.length) :
    analyze cfg s =
      { status := "VALID",
        distance_cm := some (roundTo 2
          (|landingXOf (resolveOrigin s.balls s.hint cfg.manual_origin_x).2 -
              (resolveOrigin s.balls s.hint cfg.manual_origin_x).1| *
            s.scale.getD (1/2))),
        distance_m := some (roundTo 3
          ((|landingXOf (resolveOrigin s.balls s.hint cfg.manual_origin_x).2 -
              (resolveOrigin s.balls s.hint cfg.manual_origin_x).1| *
            s.scale.getD (1/2)) / 100)),
        calibration_scale := some (s.scale.getD (1/2)),
        trajectory_points := (resolveOrigin s.balls s.hint cfg.manual_origin_x).2.length,
        error_message := none } := by
  unfold analyze
  rw [if_neg (not_lt.mpr hlen)]

/-! ### The claims -/

/-- Claim C1: on a run where the video opens and no frame is cancelled,
fewer than 3 collected object observations yield exactly the INVALID
result, whose trajectory_points is the true collected count and whose
distance fields are absent; the status is never VALID. -/
theorem spec_C1_invalid_below_three (cfg : Config) (athleteHeightCm : ℚ)
    (frames : List FrameInput)
    (hnc : ∀ f ∈ frames, f.cancel = false)
    (hlt : countObs frames < 3) :
    processFrames cfg athleteHeightCm frames = invalidResult (countObs frames) ∧
    (processFrames cfg athleteHeightCm frames).status = "INVALID" ∧
    (processFrames cfg athleteHeightCm frames).status ≠ "VALID" ∧
    (processFrames cfg athleteHeightCm frames).trajectory_points = countObs frames ∧
    (processFrames cfg athleteHeightCm frames).distance_cm = none ∧
    (processFrames cfg athleteHeightCm frames).distance_m = none := by
  have hrun := runFrames_noCancel athleteHeightCm frames (initState cfg) hnc
  have hlen := runFrames_balls_length athleteHeightCm frames (initState cfg) _ hrun
  have h0 : (initState cfg).balls.length = 0 := rfl
  rw [h0, Nat.zero_add] at hlen
  have hmain : processFrames cfg athleteHeightCm frames = invalidResult (countObs frames) := by
    have hred : processFrames cfg athleteHeightCm frames =
        analyze cfg (List.foldl (step athleteHeightCm) (initState cfg) frames) := by
      unfold processFrames
      rw [hrun]
    rw [hred]
    unfold analyze
    rw [hlen, if_pos hlt]
  refine ⟨hmain, ?_, ?_, ?_, ?_, ?_⟩ <;> rw [hmain] <;> simp [invalidResult]

/-- Witness for C1: a two-observation cancel-free run. -/
theorem spec_C1_invalid_below_three_witness :
    (∀ f ∈ ([⟨none, some (1, 2), false⟩, ⟨none, some (3, 4), false⟩] :
        List FrameInput), f.cancel = false) ∧
    countObs [⟨none, some (1, 2), false⟩, ⟨none, some (3, 4), false⟩] < 3 ∧
    processFrames ⟨none, none⟩ 175
        [⟨none, some (1, 2), false⟩, ⟨none, some (3, 4), false⟩] =
      invalidResult (countObs [⟨none, some (1, 2), false⟩, ⟨none, some (3, 4), false⟩]) :=
  ⟨by decide, by decide,
    (spec_C1_invalid_below_three ⟨none, none⟩ 175 _ (by decide) (by decide)).1⟩

/-- Claim C10: a run aborted by the per-frame cancellation check returns
exactly the CANCELLED result: trajectory_points 0; distance, scale and
error fields all absent — regardless of what was collected or derived
before the cancelled frame. -/
theorem spec_C10_cancelled (cfg : Config) (athleteHeightCm : ℚ)
    (pre post : List FrameInput) (inp : FrameInput)
    (hc : inp.cancel = true)
    (hpre : ∀ f ∈ pre, f.cancel = false) :
    processFrames cfg athleteHeightCm (pre ++ inp :: post) = cancelledResult ∧
    cancelledResult.status = "CANCELLED" ∧
    cancelledResult.trajectory_points = 0 ∧
    cancelledResult.distance_cm = none ∧
    cancelledResult.distance_m = none ∧
    cancelledResult.calibration_scale = none ∧
    cancelledResult.error_message = none := by
  refine ⟨?_, rfl, rfl, rfl, rfl, rfl, rfl⟩
  unfold processFrames
  rw [runFrames_append athleteHeightCm pre (inp :: post) (initState cfg) hpre]
  simp only [runFrames, hc, if_true]

/-- Witness for C10: cancellation on the very first frame after two
observations were to be dropped. -/
theorem spec_C10_cancelled_witness :
    (⟨some (40, some 200), some (9, 9), true⟩ : FrameInput).cancel = true ∧
    processFrames ⟨none, none⟩ 175
        ([⟨none, some (1, 2), false⟩] ++ ⟨some (40, some 200), some (9, 9), true⟩ :: []) =
      cancelledResult :=
  ⟨rfl, (spec_C10_cancelled ⟨none, none⟩ 175 [⟨none, some (1, 2), false⟩] []
      ⟨some (40, some 200), some (9, 9), true⟩ rfl (by decide)).1⟩

/-- Claim C3: within a run the calibration scale is set at most once from a
person signal.  Starting unset, a completed run ends with the scale equal
to the first qualifying candidate of the frame sequence (pixel height
strictly above 30 and ratio inside [0.2, 1.5]) — so non-qualifying frames
are skipped and retried, and out-of-range candidates are never adopted.
Starting set (derived earlier or manual), the scale is never overwritten by
any later person signal. -/
theorem spec_C3_scale_first_valid_wins :
    (∀ (athleteHeightCm : ℚ) (frames : List FrameInput) (hint0 : Option Int)
        (balls0 : List Ball) (fc0 : Nat) (t : PState),
        runFrames athleteHeightCm frames ⟨none, hint0, balls0, fc0⟩ = some t →
        t.scale = frames.findSome? (qual athleteHeightCm)) ∧
    (∀ (athleteHeightCm v : ℚ) (frames : List FrameInput) (hint0 : Option Int)
        (balls0 : List Ball) (fc0 : Nat) (t : PState),
        runFrames athleteHeightCm frames ⟨some v, hint0, balls0, fc0⟩ = some t →
        t.scale = some v) :=
  ⟨fun A frames _ _ _ t hrun =>
      runFrames_scale_none A frames _ t hrun rfl,
   fun A v frames _ _ _ t hrun =>
      runFrames_scale_some A v frames _ t hrun rfl⟩

/-- Witness for C3: a frame whose person signal qualifies (height 100px,
ratio 1.5) sets the scale; a preset scale survives the same frame. -/
theorem spec_C3_scale_first_valid_wins_witness :
    runFrames 150 [⟨some (50, some 100), none, false⟩] ⟨none, none, [], 0⟩ =
      some ⟨some (3/2), some 50, [], 1⟩ ∧
    (⟨some (3/2), some 50, [], 1⟩ : PState).scale =
      ([⟨some (50, some 100), none, false⟩] : List FrameInput).findSome? (qual 150) ∧
    runFrames 150 [⟨some (50, some 100), none, false⟩] ⟨some 1, none, [], 0⟩ =
      some ⟨some 1, some 50, [], 1⟩ ∧
    (⟨some 1, some 50, [], 1⟩ : PState).scale = some 1 :=
  ⟨by simp [runFrames, step]; norm_num,
   spec_C3_scale_first_valid_wins.1 150 [⟨some (50, some 100), none, false⟩]
     none [] 0 _ (by simp [runFrames, step]; norm_num),
   by simp [runFrames, step],
   spec_C3_scale_first_valid_wins.2 150 1 [⟨some (50, some 100), none, false⟩]
     none [] 0 _ (by simp [runFrames, step])⟩

/-- Counterexample to claim C4 as stated: a manual origin of 0 is supplied
but ignored — the override is a Python truthiness test
(`if self.config.manual_origin_x:`), so the resolver returns the heuristic
origin 5 instead of the manual 0. -/
theorem spec_C4_counterexample :
    (resolveOrigin c4balls none (some 0)).1 = 5 ∧ (5 : Int) ≠ 0 := by decide

/-- Claim C4 amended: a supplied nonzero manual origin is always the
resolved origin, for every trajectory and person hint (a manual origin of 0
is treated as unsupplied by the truthiness test); the resolver is a pure
function of its arguments, so the same manual origin with the same
trajectory yields the identical result across runs. -/
theorem spec_C4_manual_origin_amended (balls : List Ball) (hint : Option Int)
    (m : Int) (hm : m ≠ 0) :
    (resolveOrigin balls hint (some m)).1 = m := by
  unfold resolveOrigin
  simp [hm]

/-- Witness for the amended C4 at manual origin 7. -/
theorem spec_C4_manual_origin_amended_witness :
    (7 : Int) ≠ 0 ∧ (resolveOrigin c4balls (some 105) (some 7)).1 = 7 :=
  ⟨by decide, spec_C4_manual_origin_amended c4balls (some 105) 7 (by decide)⟩

/-- Counterexample to claim C2 as stated, in two parts.  (a) A VALID run
with the (permitted, nowhere-validated) negative manual scale -1 reports
distance_cm = -20 < 0, refuting unconditional nonnegativity.  (b) A VALID
run with scale 1.146 = 573/500 (inside the derivable range) and pixel
distance 1 reports distance_m = 0.011, because line 510 rounds the
unrounded dist_cm / 100 — while the claim's formula, distance_cm/100
rounded to 3 decimals, gives round3(1.15/100) = 0.012. -/
theorem spec_C2_counterexample :
    ((processFrames ⟨some (-1), none⟩ 175 c2frames).status = "VALID" ∧
      (processFrames ⟨some (-1), none⟩ 175 c2frames).distance_cm = some (-20) ∧
      ¬ (0 : ℚ) ≤ (-20 : ℚ)) ∧
    ((processFrames ⟨some (573/500), none⟩ 175 cm2frames).status = "VALID" ∧
      (processFrames ⟨some (573/500), none⟩ 175 cm2frames).distance_cm =
        some (23/20) ∧
      (processFrames ⟨some (573/500), none⟩ 175 cm2frames).distance_m =
        some (11/1000) ∧
      roundTo 3 ((23/20 : ℚ) / 100) = 12/1000 ∧
      (11/1000 : ℚ) ≠ 12/1000) := by
  constructor
  · refine ⟨rfl, ?_, by norm_num⟩
    have key : (processFrames ⟨some (-1), none⟩ 175 c2frames).distance_cm =
        some (roundTo 2 (((20 : ℤ) : ℚ) * (-1))) := rfl
    rw [key]
    have harg : (((20 : ℤ) : ℚ) * (-1)) * 10 ^ 2 = ((-2000 : ℤ) : ℚ) := by
      push_cast
      norm_num
    rw [roundTo_of_intCast 2 (-2000) _ harg]
    norm_num
  · have hcm : roundTo 2 (((1 : ℤ) : ℚ) * (573/500)) = 23/20 := by
      have harg : (((1 : ℤ) : ℚ) * (573/500)) * 10 ^ 2 = 573/5 := by
        push_cast
        norm_num
      have hfl : ⌊(573/5 : ℚ)⌋ = 114 := by
        rw [Int.floor_eq_iff]
        norm_num
      have hr : rhe (573/5 : ℚ) = 115 := by
        have h1 := rhe_eq_ceil (573/5) 114 hfl (by norm_num)
        simpa using h1
      unfold roundTo
      rw [harg, hr]
      norm_num
    have hm : roundTo 3 ((((1 : ℤ) : ℚ) * (573/500)) / 100) = 11/1000 := by
      have harg : ((((1 : ℤ) : ℚ) * (573/500)) / 100) * 10 ^ 3 = 573/50 := by
        push_cast
        norm_num
      have hfl : ⌊(573/50 : ℚ)⌋ = 11 := by
        rw [Int.floor_eq_iff]
        norm_num
      have hr : rhe (573/50 : ℚ) = 11 := rhe_eq_floor (573/50) 11 hfl (by norm_num)
      unfold roundTo
      rw [harg, hr]
      norm_num
    have hclaim : roundTo 3 ((23/20 : ℚ) / 100) = 12/1000 := by
      have harg : ((23/20 : ℚ) / 100) * 10 ^ 3 = 23/2 := by norm_num
      have hfl : ⌊(23/2 : ℚ)⌋ = 11 := by
        rw [Int.floor_eq_iff]
        norm_num
      have hr : rhe (23/2 : ℚ) = 12 := by
        have h1 := rhe_tie_odd (23/2) 11 hfl (by norm_num) (by decide)
        simpa using h1
      unfold roundTo
      rw [harg, hr]
      norm_num
    refine ⟨rfl, ?_, ?_, hclaim, by norm_num⟩
    · have keyc : (processFrames ⟨some (573/500), none⟩ 175 cm2frames).distance_cm =
          some (roundTo 2 (((1 : ℤ) : ℚ) * (573/500))) := rfl
      rw [keyc, hcm]
    · have keym : (processFrames ⟨some (573/500), none⟩ 175 cm2frames).distance_m =
          some (roundTo 3 ((((1 : ℤ) : ℚ) * (573/500)) / 100)) := rfl
      rw [keym, hm]

/-- Claim C2 amended: on every VALID run, distance_cm is exactly
|landingX - originX| * scale rounded to 2 decimals, and distance_m is the
UNROUNDED |landingX - originX| * scale divided by 100 and rounded to 3
decimals — line 510 divides the raw dist_cm, so distance_m can differ in
the last decimal from distance_cm/100 rounded; the reported calibration
scale is the scale used, and when no scale was derived or supplied the
default 1/2 (0.5 cm/px) is substituted; distance_cm is nonnegative
whenever the scale used is nonnegative — which holds except when a
negative manual scale was supplied. -/
theorem spec_C2_distance_amended (cfg : Config) (athleteHeightCm : ℚ)
    (frames : List FrameInput) (s : PState)
    (hrun : runFrames athleteHeightCm frames (initState cfg) = some s)
    (hlen : 3 ≤ s.balls.length) :
    (processFrames cfg athleteHeightCm frames).status = "VALID" ∧
    (processFrames cfg athleteHeightCm frames).distance_cm =
      some (roundTo 2
        (|landingXOf (resolveOrigin s.balls s.hint cfg.manual_origin_x).2 -
            (resolveOrigin s.balls s.hint cfg.manual_origin_x).1| *
          s.scale.getD (1/2))) ∧
    (0 ≤ s.scale.getD (1/2) →
      ∀ d, (processFrames cfg athleteHeightCm frames).distance_cm = some d →
        0 ≤ d) ∧
    (processFrames cfg athleteHeightCm frames).distance_m =
      some (roundTo 3
        ((|landingXOf (resolveOrigin s.balls s.hint cfg.manual_origin_x).2 -
            (resolveOrigin s.balls s.hint cfg.manual_origin_x).1| *
          s.scale.getD (1/2)) / 100)) ∧
    (processFrames cfg athleteHeightCm frames).calibration_scale =
      some (s.scale.getD (1/2)) ∧
    (s.scale = none → s.scale.getD (1/2) = 1/2) := by
  have hproc : processFrames cfg athleteHeightCm frames = analyze cfg s := by
    unfold processFrames
    rw [hrun]
  have hana := analyze_valid cfg s hlen
  rw [hproc, hana]
  refine ⟨rfl, rfl, ?_, rfl, rfl, ?_⟩
  · intro hsc d hd
    have hd' := Option.some.inj hd
    rw [← hd']
    exact roundTo_nonneg _ _ (mul_nonneg (by positivity) hsc)
  · intro h
    rw [h]
    rfl

/-- Witness for the amended C2: the Scenario-A run is VALID. -/
theorem spec_C2_distance_amended_witness :
    3 ≤ c2wstate.balls.length ∧
    (processFrames ⟨none, none⟩ 175 c2wframes).status = "VALID" :=
  ⟨by decide, (spec_C2_distance_amended ⟨none, none⟩ 175 c2wframes c2wstate
    (by simp [c2wframes, c2wstate, initState, runFrames, step]) (by decide)).1⟩

/-- Unfolding lemma: a nonempty near-person filter short-circuits origin
resolution to the first near point, leaving the trajectory untouched. -/
theorem resolveOrigin_near (balls : List Ball) (h : Int) (b0 : Ball)
    (t : List Ball)
    (hfil : balls.filter (fun b => |b.x - h| < 200) = b0 :: t) :
    resolveOrigin balls (some h) none = (b0.x, balls) := by
  simp only [resolveOrigin]
  rw [hfil]

/-- Claim C6: with at least 3 points, no manual origin, a known person hint
and at least one point with x strictly within 200px of it, the resolved
origin is the x of the first (earliest-frame) such point, and the
trajectory is passed on unfiltered. -/
theorem spec_C6_origin_near_person (balls : List Ball) (h : Int)
    (_hlen : 3 ≤ balls.length)
    (hex : ∃ b ∈ balls, |b.x - h| < 200) :
    ∃ i, i < balls.length ∧ |xAt balls i - h| < 200 ∧
      (∀ j, j < i → ¬ |xAt balls j - h| < 200) ∧
      (resolveOrigin balls (some h) none).1 = xAt balls i ∧
      (resolveOrigin balls (some h) none).2 = balls := by
  obtain ⟨b, hb, hnear⟩ := hex
  have hmem : b ∈ balls.filter (fun b2 => |b2.x - h| < 200) :=
    List.mem_filter.mpr ⟨hb, by simpa using hnear⟩
  cases hfil : balls.filter (fun b2 => |b2.x - h| < 200) with
  | nil => rw [hfil] at hmem; simp at hmem
  | cons b0 t =>
      have hres := resolveOrigin_near balls h b0 t hfil
      obtain ⟨i, hi, hpi, hbefore, heq⟩ := filter_head_first _ balls b0 t hfil
      refine ⟨i, hi, ?_, ?_, ?_, ?_⟩
      · exact of_decide_eq_true hpi
      · intro j hj
        exact of_decide_eq_false (hbefore j hj)
      · rw [hres]
        show b0.x = (ballAt balls i).x
        rw [heq]
      · rw [hres]

/-- Witness for C6: the Scenario-B trajectory with hint 105. -/
theorem spec_C6_origin_near_person_witness :
    (∃ b ∈ c6balls, |b.x - (105 : Int)| < 200) ∧
    (∃ i, i < c6balls.length ∧ |xAt c6balls i - 105| < 200 ∧
      (∀ j, j < i → ¬ |xAt c6balls j - 105| < 200) ∧
      (resolveOrigin c6balls (some 105) none).1 = xAt c6balls i ∧
      (resolveOrigin c6balls (some 105) none).2 = c6balls) :=
  ⟨by decide, spec_C6_origin_near_person c6balls 105 (by decide) (by decide)⟩

/-- Counterexample to claim C7 as stated: on c7balls with far hint 10000
the first (and only) consecutive triple exceeding the threshold is (2, 4)
— the claim then demands origin x[max(0, 1)] = 10 — but the code scans
`range(len - 3)`, which never examines that final triple, and returns the
fallback origin 0.  For a 3-point trajectory the same range is `range(0)`,
so no triple at all is examined, contradicting the claim's last sentence. -/
theorem spec_C7_counterexample :
    (∀ b ∈ c7balls, 200 ≤ |b.x - (10000 : Int)|) ∧
    (resolveOrigin c7balls (some 10000) none).2 = c7balls ∧
    ¬ 20 < |xAt c7balls (0 + 2) - xAt c7balls 0| ∧
    ¬ 20 < |xAt c7balls (1 + 2) - xAt c7balls 1| ∧
    20 < |xAt c7balls (2 + 2) - xAt c7balls 2| ∧
    xAt c7balls (2 - 1) = 10 ∧
    (resolveOrigin c7balls (some 10000) none).1 = 0 ∧
    (0 : Int) ≠ 10 := by decide

/-- Claim C7 amended: in the far-hint branch the movement scan runs only
over i in range(n - 3) of the (possibly filtered) trajectory, so the triple
ending at the last point is never examined and a 3-point trajectory is
never scanned; at the first in-range trigger the origin is x at
max(0, i - 1), and with no in-range trigger the origin is the x of the
first point of that trajectory. -/
theorem spec_C7_movement_scan_amended (balls : List Ball) (h : Int)
    (_hlen : 3 ≤ balls.length)
    (hfar : ∀ b ∈ balls, 200 ≤ |b.x - h|) :
    (∃ i, i < (resolveOrigin balls (some h) none).2.length - 3 ∧
        20 < |xAt (resolveOrigin balls (some h) none).2 (i + 2) -
              xAt (resolveOrigin balls (some h) none).2 i| ∧
        (∀ j, j < i →
          ¬ 20 < |xAt (resolveOrigin balls (some h) none).2 (j + 2) -
                  xAt (resolveOrigin balls (some h) none).2 j|) ∧
        (resolveOrigin balls (some h) none).1 =
          xAt (resolveOrigin balls (some h) none).2 (i - 1)) ∨
    ((∀ i, i < (resolveOrigin balls (some h) none).2.length - 3 →
        ¬ 20 < |xAt (resolveOrigin balls (some h) none).2 (i + 2) -
                xAt (resolveOrigin balls (some h) none).2 i|) ∧
      (resolveOrigin balls (some h) none).1 =
        headX (resolveOrigin balls (some h) none).2) := by
  rw [resolveOrigin_none_far balls h hfar, originNoNear_snd]
  cases hfm : firstMove (filteredTrajectory balls) with
  | some i =>
      have h1 : (originNoNear balls).1 = xAt (filteredTrajectory balls) (i - 1) := by
        simp only [originNoNear, hfm]
      left
      unfold firstMove at hfm
      obtain ⟨-, hlt2, hp, hprev⟩ := scanIdx_some _ _ _ _ hfm
      refine ⟨i, by omega, of_decide_eq_true hp, ?_, h1⟩
      intro j hj
      exact of_decide_eq_false (hprev j (Nat.zero_le j) hj)
  | none =>
      have h1 : (originNoNear balls).1 = headX (filteredTrajectory balls) := by
        simp only [originNoNear, hfm]
      right
      unfold firstMove at hfm
      have hchar := scanIdx_none _ _ _ hfm
      exact ⟨fun i hi =>
        of_decide_eq_false (hchar i (Nat.zero_le i) (by omega)), h1⟩

/-- Witness for the amended C7 at c7balls: no in-range triple triggers, so
the origin is the first point's x. -/
theorem spec_C7_movement_scan_amended_witness :
    (3 ≤ c7balls.length) ∧
    ((∃ i, i < (resolveOrigin c7balls (some 10000) none).2.length - 3 ∧
        20 < |xAt (resolveOrigin c7balls (some 10000) none).2 (i + 2) -
              xAt (resolveOrigin c7balls (some 10000) none).2 i| ∧
        (∀ j, j < i →
          ¬ 20 < |xAt (resolveOrigin c7balls (some 10000) none).2 (j + 2) -
                  xAt (resolveOrigin c7balls (some 10000) none).2 j|) ∧
        (resolveOrigin c7balls (some 10000) none).1 =
          xAt (resolveOrigin c7balls (some 10000) none).2 (i - 1)) ∨
     ((∀ i, i < (resolveOrigin c7balls (some 10000) none).2.length - 3 →
        ¬ 20 < |xAt (resolveOrigin c7balls (some 10000) none).2 (i + 2) -
                xAt (resolveOrigin c7balls (some 10000) none).2 i|) ∧
      (resolveOrigin c7balls (some 10000) none).1 =
        headX (resolveOrigin c7balls (some 10000) none).2)) :=
  ⟨by decide, spec_C7_movement_scan_amended c7balls 10000 (by decide) (by decide)⟩

/-- Claim C8: in the far-hint branch, the chosen width-50 bucket is modal;
the trajectory passed on equals the filtered list exactly when the modal
bucket holds strictly more than 40 percent of the points (2n < 5c) and at
least 3 points survive, and is otherwise unchanged; and every dropped point
lies within 75px of the bucket center. -/
theorem spec_C8_static_cluster_filter (balls : List Ball) (h : Int)
    (_hlen : 3 ≤ balls.length)
    (hfar : ∀ b ∈ balls, 200 ≤ |b.x - h|) :
    (∀ b ∈ balls, bucketCount balls (bucketOf b.x) ≤
        bucketCount balls (staticBucketOf balls)) ∧
    (resolveOrigin balls (some h) none).2 =
      (if 2 * balls.length < 5 * bucketCount balls (staticBucketOf balls) ∧
          3 ≤ (balls.filter
            (fun b => 75 < |b.x - staticBucketOf balls - 25|)).length
       then balls.filter (fun b => 75 < |b.x - staticBucketOf balls - 25|)
       else balls) ∧
    (∀ b ∈ balls,
      b ∉ balls.filter (fun b2 => 75 < |b2.x - staticBucketOf balls - 25|) →
      |b.x - (staticBucketOf balls + 25)| ≤ 75) := by
  refine ⟨fun b hb => staticBucketOf_maximal balls b hb, ?_, ?_⟩
  · rw [resolveOrigin_none_far balls h hfar, originNoNear_snd,
      filteredTrajectory_eq]
  · intro b hb hnot
    have hngt : ¬ 75 < |b.x - staticBucketOf balls - 25| := by
      intro hgt
      exact hnot (List.mem_filter.mpr ⟨hb, by simpa using hgt⟩)
    have h2 : |b.x - staticBucketOf balls - 25| ≤ 75 := not_lt.mp hngt
    have h3 : b.x - staticBucketOf balls - 25 = b.x - (staticBucketOf balls + 25) := by
      ring
    rwa [h3] at h2

/-- Witness for C8: three clustered points far from the hint; the filter
condition holds but only 0 points would survive, so the trajectory is kept
unfiltered. -/
theorem spec_C8_static_cluster_filter_witness :
    (∀ b ∈ c8balls, 200 ≤ |b.x - (1000 : Int)|) ∧
    (resolveOrigin c8balls (some 1000) none).2 = c8balls :=
  ⟨by decide,
   ((spec_C8_static_cluster_filter c8balls 1000 (by decide) (by decide)).2.1).trans
     (by decide)⟩

/-- Claim C9 (implicit): once the static-cluster filter fires and is
adopted, the filtered trajectory permanently replaces the collected one:
the VALID result's trajectory_points is the filtered count and the landing
arg-max is taken over the filtered list; and there is a run where that
count is strictly smaller than the number of observations collected. -/
theorem spec_C9_filter_persists :
    (∀ (cfg : Config) (s : PState) (h : Int),
      s.hint = some h →
      3 ≤ s.balls.length →
      (∀ b ∈ s.balls, 200 ≤ |b.x - h|) →
      2 * s.balls.length < 5 * bucketCount s.balls (staticBucketOf s.balls) →
      3 ≤ (s.balls.filter
        (fun b => 75 < |b.x - staticBucketOf s.balls - 25|)).length →
      (analyze cfg s).status = "VALID" ∧
      (analyze cfg s).trajectory_points =
        (s.balls.filter
          (fun b => 75 < |b.x - staticBucketOf s.balls - 25|)).length ∧
      (analyze cfg s).distance_cm =
        some (roundTo 2
          (|landingXOf (s.balls.filter
              (fun b => 75 < |b.x - staticBucketOf s.balls - 25|)) -
              (resolveOrigin s.balls (some h) cfg.manual_origin_x).1| *
            s.scale.getD (1/2)))) ∧
    (∃ s : PState, (analyze ⟨none, none⟩ s).status = "VALID" ∧
      (analyze ⟨none, none⟩ s).trajectory_points < s.balls.length) := by
  constructor
  · intro cfg s h hhint hlen2 hfar hcond hkeep
    have hsnd : (resolveOrigin s.balls (some h) cfg.manual_origin_x).2 =
        s.balls.filter (fun b => 75 < |b.x - staticBucketOf s.balls - 25|) := by
      rw [resolveOrigin_snd, resolveOrigin_none_far _ _ hfar, originNoNear_snd,
        filteredTrajectory_eq, if_pos ⟨hcond, hkeep⟩]
    have hana := analyze_valid cfg s hlen2
    rw [hhint] at hana
    refine ⟨by rw [hana], ?_, ?_⟩
    · rw [show (analyze cfg s).trajectory_points =
          (resolveOrigin s.balls (some h) cfg.manual_origin_x).2.length from
          by rw [hana], hsnd]
    · rw [show (analyze cfg s).distance_cm =
          some (roundTo 2
            (|landingXOf (resolveOrigin s.balls (some h) cfg.manual_origin_x).2 -
                (resolveOrigin s.balls (some h) cfg.manual_origin_x).1| *
              s.scale.getD (1/2))) from by rw [hana], hsnd]
  · exact ⟨c9state, rfl, by decide⟩

/-- Witness for C9 at the concrete six-observation state: the VALID result
keeps only the three non-clustered points. -/
theorem spec_C9_filter_persists_witness :
    (analyze ⟨none, none⟩ c9state).status = "VALID" ∧
    (analyze ⟨none, none⟩ c9state).trajectory_points =
      (c9state.balls.filter
        (fun b => 75 < |b.x - staticBucketOf c9state.balls - 25|)).length :=
  ⟨(spec_C9_filter_persists.1 ⟨none, none⟩ c9state 10000 rfl (by decide)
      (by decide) (by decide) (by decide)).1,
   (spec_C9_filter_persists.1 ⟨none, none⟩ c9state 10000 rfl (by decide)
      (by decide) (by decide) (by decide)).2.1⟩

end MedicineBall
